import Mathlib

/-!
# Verification of `src/libs/vue/src/builders/dev-server/builder.ts`

A shallow embedding of the dev-server builder adapter of the `nx-plus`
repository.  The adapter merges built-in defaults, a project `vue.config`
file and explicit invocation options with the `merge-options` npm package
(called with `ignoreUndefined: true`), normalizes the `css` option, copies a
whitelist of dev-server options onto the raw browser-target options, wires a
`chainWebpack` wrapper, and adapts the promise returned by the delegate's
`run('serve', ...)` call into a single-outcome observable stream.

JavaScript values are modelled by the inductive type `JsValue`; objects are
association lists of string keys.  `merge-options` is modelled by the
mutually recursive `mergeValue` / `mergeFields` / `mergeField` functions,
which deep-merge plain objects and skip `undefined` source values exactly as
the package does under `ignoreUndefined: true`.
-/

/-- A JavaScript value: `undefined`, `null`, booleans, numbers (modelled as
integers — no fractional values appear in the builder), strings, arrays,
functions (opaque, identified by a tag) and plain objects as association
lists. -/
inductive JsValue where
  | undefined
  | null
  | bool (b : Bool)
  | num (n : Int)
  | str (s : String)
  | arr (elems : List JsValue)
  | func (tag : Nat)
  | obj (fields : List (String × JsValue))

namespace JsValue

/-- The JavaScript test `v !== undefined` (strict comparison against
`undefined`). -/
def isUndefined : JsValue → Bool
  | .undefined => true
  | _ => false

/-- JavaScript truthiness: `undefined`, `null`, `false`, `0` and `""` are
falsy; every other value (including every array, function and object) is
truthy. -/
def truthy : JsValue → Bool
  | .undefined => false
  | .null => false
  | .bool b => b
  | .num n => n != 0
  | .str s => s != ""
  | .arr _ => true
  | .func _ => true
  | .obj _ => true

/-- Is the value a plain object (`is-plain-obj`), the only kind of value
`merge-options` merges recursively? -/
def isPlainObj : JsValue → Bool
  | .obj _ => true
  | _ => false

end JsValue

/-- Look a key up in an object's field list: first binding wins, `none` when
the key is absent (a JavaScript object holds each key at most once). -/
def lookupField (fields : List (String × JsValue)) (k : String) : Option JsValue :=
  match fields with
  | [] => none
  | (k', v) :: rest => if k' = k then some v else lookupField rest k

/-- Assign a key in an object's field list: an existing binding is updated
in place, a new key is appended — JavaScript property-assignment order. -/
def setField (fields : List (String × JsValue)) (k : String) (v : JsValue) :
    List (String × JsValue) :=
  match fields with
  | [] => [(k, v)]
  | (k', v') :: rest => if k' = k then (k, v) :: rest else (k', v') :: setField rest k v

/-- JavaScript property read `a.b` on a value already known not to be
`undefined`/`null`: field lookup on objects (absent keys read as
`undefined`), `undefined` on other values. -/
def getProp (v : JsValue) (k : String) : JsValue :=
  match v with
  | .obj fields => (lookupField fields k).getD .undefined
  | _ => .undefined

/-- Optional chaining `a?.b`: `undefined` when `a` is `undefined` or `null`,
an ordinary property read otherwise. -/
def optChainProp (v : JsValue) (k : String) : JsValue :=
  match v with
  | .undefined => .undefined
  | .null => .undefined
  | v => getProp v k

/-- A thrown JavaScript exception; the builder can only throw `TypeError`s
from property reads on `undefined` and from `Object.keys(undefined)`. -/
inductive JsError where
  | typeError (msg : String)
  deriving DecidableEq

/-- JavaScript property read `a.b` that throws a `TypeError` when `a` is
`undefined` or `null`. -/
def getPropE (v : JsValue) (k : String) : Except JsError JsValue :=
  match v with
  | .undefined => .error (.typeError "Cannot read properties of undefined")
  | .null => .error (.typeError "Cannot read properties of null")
  | v => .ok (getProp v k)

/-- Model of `Object.keys(v)`: field names of an object, index strings of an array or
a string, `[]` for other primitives, and a thrown `TypeError` on
`undefined`/`null`. -/
def objectKeys (v : JsValue) : Except JsError (List String) :=
  match v with
  | .undefined => .error (.typeError "Cannot convert undefined or null to object")
  | .null => .error (.typeError "Cannot convert undefined or null to object")
  | .obj fields => .ok (fields.map Prod.fst)
  | .arr elems => .ok ((List.range elems.length).map toString)
  | .str s => .ok ((List.range s.length).map toString)
  | _ => .ok []

/-!
## The `merge-options` package under `ignoreUndefined: true`

`mergeOptions.call({ ignoreUndefined: true }, defaults, vueConfig, explicit)`
reduces its arguments into a fresh `{}`.  For each enumerable key of the
source: an `undefined` source value is skipped; when the key already exists
in the accumulator and both values are plain objects they are merged
recursively; otherwise the source value replaces (a clone of a value is the
same value in this model).
-/

mutual

/-- The function `merge(merged, source, config)` of `merge-options`: plain objects merge
key by key, any other source value replaces the accumulated one. -/
def mergeValue : JsValue → JsValue → JsValue
  | .obj a, .obj b => .obj (mergeFields a b)
  | _, b => b
termination_by _ b => (sizeOf b, 0)

/-- The `mergeKeys` loop of `merge-options`: fold the source fields into the
accumulated fields, left to right. -/
def mergeFields (acc : List (String × JsValue)) :
    List (String × JsValue) → List (String × JsValue)
  | [] => acc
  | (k, v) :: rest => mergeFields (mergeField acc k v) rest
termination_by l => (sizeOf l, 2)

/-- One step of `mergeKeys`: skip an `undefined` source value
(`ignoreUndefined: true`); when the key is already present merge the two
values, otherwise add the source value. -/
def mergeField (acc : List (String × JsValue)) (k : String) (v : JsValue) :
    List (String × JsValue) :=
  match v with
  | .undefined => acc
  | v =>
    match lookupField acc k with
    | some old => setField acc k (mergeValue old v)
    | none => setField acc k v
termination_by (sizeOf v, 1)

end

/-- The top-level `mergeOptions.call({ ignoreUndefined: true }, ...layers)`:
reduce the layers into an empty object. -/
def mergeOptionsIgnoreUndefined (layers : List JsValue) : JsValue :=
  layers.foldl mergeValue (.obj [])

/-- The per-key effect of one merge layer: an absent or `undefined` source
value leaves the accumulated value alone; otherwise the source value merges
into (replaces, or deep-merges when both are plain objects) the accumulated
one. -/
def fieldCombine (old : Option JsValue) (srcVal : Option JsValue) : Option JsValue :=
  match srcVal with
  | none => old
  | some .undefined => old
  | some v =>
    match old with
    | some o => some (mergeValue o v)
    | none => some v

/-!
## The builder's own definitions

Everything below is translated from
`src/libs/vue/src/builders/dev-server/builder.ts`.  The dev-server
invocation options and the raw browser-target options are JavaScript objects
and appear as field lists; values produced by collaborators that are not
part of this fragment (`getTargetOptions`, `resolveVueConfig`,
`getBabelConfig`, option validation) are universally quantified parameters.
-/

/-- The condition of the `css` normalization at the top of `runBuilder`:

`options.css.requireModuleExtension === undefined &&
 options.css.extract === undefined &&
 options.css.sourceMap === undefined &&
 !Object.keys(options.css.loaderOptions).length`

evaluated with JavaScript's short-circuit `&&` — each property read throws a
`TypeError` when `options.css` is `undefined`, and `Object.keys` throws when
`options.css.loaderOptions` is `undefined`, but the later conjuncts are not
evaluated once an earlier one is false. -/
def cssResetCondition (css : JsValue) : Except JsError Bool := do
  let rme ← getPropE css "requireModuleExtension"
  if rme.isUndefined then do
    let ex ← getPropE css "extract"
    if ex.isUndefined then do
      let sm ← getPropE css "sourceMap"
      if sm.isUndefined then do
        let lo ← getPropE css "loaderOptions"
        let ks ← objectKeys lo
        pure ks.isEmpty
      else pure false
    else pure false
  else pure false

/-- The `css` normalization as it acts on the whole options object: when the
condition holds, `options.css = undefined` is assigned (the key stays, its
value becomes `undefined`); otherwise the options are untouched.  A thrown
`TypeError` propagates. -/
def normalizeOptions (opts : List (String × JsValue)) :
    Except JsError (List (String × JsValue)) := do
  let reset ← cssResetCondition ((lookupField opts "css").getD .undefined)
  pure (if reset then setField opts "css" .undefined else opts)

/-- The whitelist `devServerBuilderOverriddenKeys` of the source. -/
def devServerBuilderOverriddenKeys : List String :=
  ["mode", "skipPlugins", "publicPath", "css", "stdin"]

/-- The `overrides` object of `setup()`:
`Object.keys(options).filter(key => options[key] !== undefined &&
devServerBuilderOverriddenKeys.includes(key)).reduce((previous, key) =>
({ ...previous, [key]: options[key] }), {})`. -/
def overridesFields (opts : List (String × JsValue)) : List (String × JsValue) :=
  ((opts.map Prod.fst).filter (fun k =>
      !((lookupField opts k).getD .undefined).isUndefined &&
        devServerBuilderOverriddenKeys.contains k)).foldl
    (fun previous k => setField previous k ((lookupField opts k).getD .undefined)) []

/-- JavaScript object-spread of two field lists: `{ ...a, ...b }`. -/
def spreadFields (a b : List (String × JsValue)) : List (String × JsValue) :=
  b.foldl (fun acc kv => setField acc kv.1 kv.2) a

/-- The object `{ ...rawBrowserOptions, ...overrides }` handed to
`context.validateOptions`. -/
def browserOptionsBeforeValidation (rawBrowserOptions opts : List (String × JsValue)) :
    List (String × JsValue) :=
  spreadFields rawBrowserOptions (overridesFields opts)

/-- The `defaults` object literal of `setup()`. -/
def defaultsFields : List (String × JsValue) :=
  [("publicPath", .str "/"),
   ("transpileDependencies", .arr []),
   ("css", .obj
     [("requireModuleExtension", .bool true),
      ("extract", .bool false),
      ("sourceMap", .bool false),
      ("loaderOptions", .obj [])]),
   ("devServer", .obj [])]

/-- The adapter's `chainWebpack` wrapper function, passed in the explicit
(third) merge layer; functions are opaque values, the wrapper gets tag 0. -/
def chainWebpackWrapper : JsValue := .func 0

/-- The explicit (third, highest-priority) layer of the `mergeOptions` call:
the object literal with `chainWebpack`, `publicPath`, `filenameHashing`,
`css`, `devServer` and `transpileDependencies`. -/
def explicitLayerFields (browserPublicPath filenameHashing browserCss devServer
    transpileDependencies : JsValue) : List (String × JsValue) :=
  [("chainWebpack", chainWebpackWrapper),
   ("publicPath", browserPublicPath),
   ("filenameHashing", filenameHashing),
   ("css", browserCss),
   ("devServer", devServer),
   ("transpileDependencies", transpileDependencies)]

/-- The `inlineOptions` produced by
`mergeOptions.call({ ignoreUndefined: true }, defaults, vueConfig, explicit)`. -/
def inlineOptionsMerged (vueConfig : JsValue) (explicit : List (String × JsValue)) : JsValue :=
  mergeOptionsIgnoreUndefined [.obj defaultsFields, vueConfig, .obj explicit]

/-- Field list of an object value (and `[]` for any other value). -/
def jsFields : JsValue → List (String × JsValue)
  | .obj fields => fields
  | _ => []

/-- Modelled from the spec: `resolveConfigureWebpack` lives in
`src/libs/vue/src/utils.ts`, which is not part of this fragment.  Per the
spec it yields the legacy per-project webpack-config hook — a function —
exactly when the legacy hook file (`configure-webpack.js`) is present in the
project root, and nothing (`undefined`) otherwise. -/
def resolveConfigureWebpack (legacyHookFilePresent : Bool) (hookTag : Nat) : JsValue :=
  if legacyHookFilePresent then .func hookTag else .undefined

/-- The deprecation warning logged by `context.logger.warn`. -/
def deprecationWarningText : String :=
  "\"configure-webpack.js\" has been deprecated. Please move this function to the \"vue-nx.config.js\" file."

/-- JavaScript property assignment `v[k] = x` on an object value. -/
def setProp (v : JsValue) (k : String) (x : JsValue) : JsValue :=
  match v with
  | .obj fields => .obj (setField fields k x)
  | v => v

/-- The `if (configureWebpack)` block after the merge: when the resolved
value is truthy, log the deprecation warning once and assign
`inlineOptions['configureWebpack']`; otherwise do neither.  The second
component collects the warnings logged by this block. -/
def applyConfigureWebpack (inlineOptions : JsValue) (configureWebpack : JsValue) :
    JsValue × List String :=
  if configureWebpack.truthy then
    (setProp inlineOptions "configureWebpack" configureWebpack, [deprecationWarningText])
  else (inlineOptions, [])

/-- The `inlineOptions` object returned from `setup()` together with the
warnings logged while producing it. -/
def setupInlineOptions (vueConfig : JsValue) (explicit : List (String × JsValue))
    (configureWebpack : JsValue) : JsValue × List String :=
  applyConfigureWebpack (inlineOptionsMerged vueConfig explicit) configureWebpack

/-- One webpack-chain modification performed inside the adapter's
`chainWebpack` wrapper.  The `modify*` helpers live outside this fragment;
only their identity and order matter here. -/
inductive ChainAction where
  | modifyIndexHtmlPath
  | modifyEntryPoint
  | modifyTsConfigPaths
  | modifyCachePaths
  | modifyTypescriptAliases
  | modifyBabelLoader
  | installWatchDisablePlugin
  | vueConfigChainWebpack
  deriving DecidableEq

/-- The sequence of actions the adapter's `chainWebpack` wrapper performs on
the webpack-chain config, in source order: the five unconditional
modifications, then `modifyBabelLoader` when a babel config was found, then
the watch-disabling plugin when `options.watch` is falsy, and finally
`vueConfig.chainWebpack && vueConfig.chainWebpack(config)`. -/
def chainWebpackWrapperActions (babelConfig watch vueConfigChain : JsValue) :
    List ChainAction :=
  [.modifyIndexHtmlPath, .modifyEntryPoint, .modifyTsConfigPaths, .modifyCachePaths,
      .modifyTypescriptAliases]
    ++ (if babelConfig.truthy then [.modifyBabelLoader] else [])
    ++ (if !watch.truthy then [.installWatchDisablePlugin] else [])
    ++ (if vueConfigChain.truthy then [.vueConfigChainWebpack] else [])

/-- JavaScript `a || b`. -/
def jsOr (a b : JsValue) : JsValue := if a.truthy then a else b

/-- The argument object of `service.run('serve', { ... }, ['serve'])`,
field by field as in the source.  `opts` is the dev-server options object,
`inlineOptions` the merged inline options, `browserOptions` the validated
browser-target options. -/
def serveArgsFields (opts : List (String × JsValue)) (inlineOptions : JsValue)
    (browserOptions : List (String × JsValue)) : List (String × JsValue) :=
  [("open",
      jsOr (getProp (.obj opts) "open") (optChainProp (getProp inlineOptions "devServer") "open")),
   ("copy", getProp (.obj opts) "copy"),
   ("stdin", getProp (.obj opts) "stdin"),
   ("mode", getProp (.obj browserOptions) "mode"),
   ("host",
      jsOr (getProp (.obj opts) "host") (optChainProp (getProp inlineOptions "devServer") "host")),
   ("port",
      jsOr (getProp (.obj opts) "port") (optChainProp (getProp inlineOptions "devServer") "port")),
   ("https",
      jsOr (getProp (.obj opts) "https")
        (optChainProp (getProp inlineOptions "devServer") "https")),
   ("public",
      jsOr (getProp (.obj opts) "public")
        (optChainProp (getProp inlineOptions "devServer") "public")),
   ("skip-plugins", getProp (.obj browserOptions) "skipPlugins")]

/-- The record `{ success: true, baseUrl: url }` emitted by the final `map`
operator. -/
structure BuilderOutput where
  success : Bool
  baseUrl : JsValue

/-- One notification of the observable returned by `runBuilder`. -/
inductive StreamEvent where
  | next (output : BuilderOutput)
  | error (e : JsValue)

/-- A thrown `TypeError` as a JavaScript error value. -/
def typeErrorValue (msg : String) : JsValue :=
  .obj [("name", .str "TypeError"), ("message", .str msg)]

/-- The notifications of the observable returned by `runBuilder`, as a
function of the three asynchronous outcomes it adapts:

* `setupResult` — the promise returned by `setup()` (`from(setup())`); its
  rejection is emitted as a stream error by `switchMap`;
* `checkResult` — the synchronous `checkUnsupportedConfig` call inside the
  `switchMap` project function; rxjs turns a throw there into a stream
  error;
* `runResult` — the promise returned by `service.run('serve', ...)`; the
  code wires `.then(success => obs.next(success))` and
  `.catch(err => obs.error(err))`, and the final
  `map(({ url }) => ({ success: true, baseUrl: url }))` reshapes the single
  `next` value (destructuring `url` from `undefined`/`null` throws, which
  rxjs again emits as a stream error).

A promise settles exactly once, which is why each outcome is a single
`Except`. -/
def runBuilderEvents (setupResult checkResult : Except JsValue Unit)
    (runResult : Except JsValue JsValue) : List StreamEvent :=
  match setupResult with
  | .error e => [.error e]
  | .ok _ =>
    match checkResult with
    | .error e => [.error e]
    | .ok _ =>
      match runResult with
      | .error e => [.error e]
      | .ok success =>
        match success with
        | .undefined => [.error (typeErrorValue "Cannot destructure property url of undefined")]
        | .null => [.error (typeErrorValue "Cannot destructure property url of null")]
        | s => [.next ⟨true, getProp s "url"⟩]

/-- How many times `service.run` is invoked in one `runBuilder` invocation:
once when the subscription reaches the inner observable (setup resolved and
`checkUnsupportedConfig` returned), never otherwise — the pipeline contains
no retry operator. -/
def delegateRunCalls (setupResult checkResult : Except JsValue Unit) : Nat :=
  match setupResult, checkResult with
  | .ok _, .ok _ => 1
  | _, _ => 0

theorem fieldCombine_none_right (old : Option JsValue) : fieldCombine old none = old := rfl

theorem lookupField_eq_none (fields : List (String × JsValue)) (k : String)
    (h : k ∉ fields.map Prod.fst) : lookupField fields k = none := by
  induction fields with
  | nil => rfl
  | cons hd tl ih =>
    obtain ⟨k0, v0⟩ := hd
    simp only [List.map_cons, List.mem_cons, not_or] at h
    have hne : ¬k0 = k := fun hh => h.1 hh.symm
    simp [lookupField, hne, ih h.2]

theorem lookupField_setField (fields : List (String × JsValue)) (k : String) (v : JsValue)
    (k' : String) :
    lookupField (setField fields k v) k' = if k = k' then some v else lookupField fields k' := by
  induction fields with
  | nil => simp [setField, lookupField]
  | cons hd tl ih =>
    obtain ⟨k0, v0⟩ := hd
    by_cases h0 : k0 = k
    · subst h0
      simp only [setField, if_pos rfl, lookupField]
      by_cases h1 : k0 = k' <;> simp [h1, lookupField]
    · have h0' : ¬k = k0 := fun hh => h0 hh.symm
      simp only [setField, if_neg h0]
      by_cases h1 : k0 = k'
      · subst h1
        simp [lookupField, h0']
      · simp [lookupField, h1, ih]

theorem lookupField_mergeField (acc : List (String × JsValue)) (k : String) (v : JsValue)
    (k' : String) :
    lookupField (mergeField acc k v) k' =
      if k = k' then fieldCombine (lookupField acc k') (some v) else lookupField acc k' := by
  cases v
  case undefined => by_cases hk : k = k' <;> simp [mergeField, fieldCombine, hk]
  all_goals (
    by_cases hk : k = k'
    · subst hk
      cases hacc : lookupField acc k <;>
        simp [mergeField, hacc, lookupField_setField, fieldCombine]
    · cases hacc : lookupField acc k <;>
        simp [mergeField, hacc, lookupField_setField, hk])

/-- Per-key description of one `mergeKeys` pass: when the source object has
no duplicate keys (JavaScript objects never do), the value at each key of
the result is the accumulated value combined with the source value at that
key. -/
theorem lookupField_mergeFields (src : List (String × JsValue))
    (h : (src.map Prod.fst).Nodup) (acc : List (String × JsValue)) (k : String) :
    lookupField (mergeFields acc src) k = fieldCombine (lookupField acc k) (lookupField src k) := by
  induction src generalizing acc with
  | nil => simp [mergeFields, lookupField, fieldCombine_none_right]
  | cons hd rest ih =>
    obtain ⟨k0, v0⟩ := hd
    simp only [List.map_cons, List.nodup_cons] at h
    obtain ⟨hnot, hrest⟩ := h
    have hstep : mergeFields acc ((k0, v0) :: rest) = mergeFields (mergeField acc k0 v0) rest := by
      simp [mergeFields]
    rw [hstep, ih hrest, lookupField_mergeField]
    by_cases hk : k0 = k
    · subst hk
      rw [lookupField_eq_none rest k0 hnot]
      simp [lookupField, fieldCombine_none_right]
    · simp [lookupField, hk]

/-- Per-key description of the three-layer `mergeOptions` call of `setup()`:
for any project config and explicit layer without duplicate keys, the merged
value at a key combines the defaults value, the project-config value and the
explicit value in increasing priority under `merge-options`' rule
(`fieldCombine`). -/
theorem lookupField_inlineOptionsMerged (vueCfg explicit : List (String × JsValue))
    (hv : (vueCfg.map Prod.fst).Nodup) (he : (explicit.map Prod.fst).Nodup) (k : String) :
    lookupField (jsFields (inlineOptionsMerged (.obj vueCfg) explicit)) k =
      fieldCombine
        (fieldCombine (fieldCombine none (lookupField defaultsFields k))
          (lookupField vueCfg k))
        (lookupField explicit k) := by
  have hd : (defaultsFields.map Prod.fst).Nodup := by decide
  have hstep : inlineOptionsMerged (.obj vueCfg) explicit =
      .obj (mergeFields (mergeFields (mergeFields [] defaultsFields) vueCfg) explicit) := by
    simp [inlineOptionsMerged, mergeOptionsIgnoreUndefined, mergeValue]
  rw [hstep]
  show lookupField (mergeFields (mergeFields (mergeFields [] defaultsFields) vueCfg) explicit) k =
    _
  rw [lookupField_mergeFields explicit he, lookupField_mergeFields vueCfg hv,
    lookupField_mergeFields defaultsFields hd]
  rfl

/-- C3: for every invocation of `runBuilder` — whatever the outcomes of the
`setup()` promise, the `checkUnsupportedConfig` call and the delegate's
`run` promise — the returned stream produces exactly one outcome, a single
success result or a single error, and nothing follows the first emission. -/
theorem single_outcome_per_invocation (setupResult checkResult : Except JsValue Unit)
    (runResult : Except JsValue JsValue) :
    (runBuilderEvents setupResult checkResult runResult).length = 1 ∧
      ((∃ o, runBuilderEvents setupResult checkResult runResult = [.next o]) ∨
        (∃ e, runBuilderEvents setupResult checkResult runResult = [.error e])) := by
  cases setupResult with
  | error e => exact ⟨rfl, Or.inr ⟨e, rfl⟩⟩
  | ok u =>
    cases checkResult with
    | error e => exact ⟨rfl, Or.inr ⟨e, rfl⟩⟩
    | ok u' =>
      cases runResult with
      | error e => exact ⟨rfl, Or.inr ⟨e, rfl⟩⟩
      | ok success => cases success <;> simp [runBuilderEvents]

/-- C5: every failure of the delegate's `run` call is forwarded unchanged to
the caller as the (terminal, single) error of the result stream, and in such
an invocation the delegate was invoked exactly once — there is no retry, no
categorization and no recovery. -/
theorem delegate_failure_forwarded (e : JsValue) :
    runBuilderEvents (.ok ()) (.ok ()) (.error e) = [.error e] ∧
      delegateRunCalls (.ok ()) (.ok ()) = 1 :=
  ⟨rfl, rfl⟩

/-- C7: on successful completion of the delegate's serve call the single
emitted output record has `success` equal to `true` and `baseUrl` equal to
the `url` field of the delegate's resolved result. -/
theorem success_output_baseUrl (fs : List (String × JsValue)) (u : JsValue)
    (h : lookupField fs "url" = some u) :
    runBuilderEvents (.ok ()) (.ok ()) (.ok (.obj fs)) = [.next ⟨true, u⟩] := by
  simp [runBuilderEvents, getProp, h]

/-- Witness for C7: a delegate result `{ url: "http://localhost:4200/" }`
produces the single output `{ success: true, baseUrl: "http://localhost:4200/" }`. -/
theorem success_output_baseUrl_witness :
    runBuilderEvents (.ok ()) (.ok ()) (.ok (.obj [("url", .str "http://localhost:4200/")])) =
      [.next ⟨true, .str "http://localhost:4200/"⟩] :=
  success_output_baseUrl [("url", .str "http://localhost:4200/")] (.str "http://localhost:4200/") rfl

theorem lookupField_isSome_iff_mem (fields : List (String × JsValue)) (k : String) :
    (lookupField fields k).isSome = true ↔ k ∈ fields.map Prod.fst := by
  induction fields with
  | nil => simp [lookupField]
  | cons hd tl ih =>
    obtain ⟨k0, v0⟩ := hd
    by_cases h0 : k0 = k
    · subst h0
      simp [lookupField]
    · have h0' : ¬k = k0 := fun h => h0 h.symm
      simp [lookupField, h0, h0', ih]

theorem map_fst_setField (fields : List (String × JsValue)) (k : String) (v : JsValue) :
    (setField fields k v).map Prod.fst =
      if k ∈ fields.map Prod.fst then fields.map Prod.fst else fields.map Prod.fst ++ [k] := by
  induction fields with
  | nil => simp [setField]
  | cons hd tl ih =>
    obtain ⟨k0, v0⟩ := hd
    by_cases h0 : k0 = k
    · subst h0
      simp [setField]
    · have h0' : ¬k = k0 := fun h => h0 h.symm
      simp only [setField, if_neg h0, List.map_cons, ih, List.mem_cons]
      by_cases h1 : k ∈ tl.map Prod.fst
      · simp [h1, h0']
      · simp [h1, h0']

theorem nodup_setField (fields : List (String × JsValue)) (k : String) (v : JsValue)
    (h : (fields.map Prod.fst).Nodup) : ((setField fields k v).map Prod.fst).Nodup := by
  rw [map_fst_setField]
  by_cases h1 : k ∈ fields.map Prod.fst
  · simpa [h1]
  · simpa [h1, List.nodup_append] using h

/-- Folding key assignments with a fixed per-key value function: the result
binds exactly the folded keys, each to its function value. -/
theorem lookupField_foldl_setField (keysL : List String) (f : String → JsValue)
    (init : List (String × JsValue)) (k : String) :
    lookupField (keysL.foldl (fun previous k' => setField previous k' (f k')) init) k =
      if k ∈ keysL then some (f k) else lookupField init k := by
  induction keysL generalizing init with
  | nil => simp
  | cons k0 tl ih =>
    simp only [List.foldl_cons, ih, List.mem_cons]
    by_cases h1 : k ∈ tl
    · simp [h1]
    · simp only [h1, if_false, or_false, lookupField_setField]
      by_cases h2 : k = k0
      · subst h2; simp
      · have h2' : ¬k0 = k := fun h => h2 h.symm
        simp [h2, h2']

theorem nodup_foldl_setField (keysL : List String) (f : String → JsValue)
    (init : List (String × JsValue)) (h : (init.map Prod.fst).Nodup) :
    (((keysL.foldl (fun previous k' => setField previous k' (f k')) init)).map Prod.fst).Nodup := by
  induction keysL generalizing init with
  | nil => simpa
  | cons k0 tl ih => exact ih _ (nodup_setField _ _ _ h)

theorem nodup_overridesFields (opts : List (String × JsValue)) :
    ((overridesFields opts).map Prod.fst).Nodup :=
  nodup_foldl_setField _ _ [] (by simp)

/-- The `overrides` object binds exactly the whitelisted keys whose value in
the options object is defined, each to that value. -/
theorem lookupField_overridesFields (opts : List (String × JsValue)) (k : String) :
    lookupField (overridesFields opts) k =
      if !((lookupField opts k).getD .undefined).isUndefined && devServerBuilderOverriddenKeys.contains k
      then some ((lookupField opts k).getD .undefined)
      else none := by
  unfold overridesFields
  rw [lookupField_foldl_setField]
  by_cases hp : (!((lookupField opts k).getD JsValue.undefined).isUndefined &&
      devServerBuilderOverriddenKeys.contains k) = true
  · have hsome : (lookupField opts k).isSome = true := by
      rcases hh : lookupField opts k with _ | v
      · rw [hh] at hp
        simp [JsValue.isUndefined] at hp
      · rfl
    have hmem : k ∈ (opts.map Prod.fst).filter (fun k' =>
        !((lookupField opts k').getD .undefined).isUndefined &&
          devServerBuilderOverriddenKeys.contains k') := by
      rw [List.mem_filter]
      exact ⟨(lookupField_isSome_iff_mem opts k).1 hsome, hp⟩
    rw [if_pos hmem, if_pos hp]
  · have hmem : k ∉ (opts.map Prod.fst).filter (fun k' =>
        !((lookupField opts k').getD .undefined).isUndefined &&
          devServerBuilderOverriddenKeys.contains k') := by
      rw [List.mem_filter]
      rintro ⟨-, hcond⟩
      exact hp hcond
    rw [if_neg hmem, if_neg hp]
    rfl

/-- JavaScript object-spread per key, for a second object without duplicate
keys: the second object's binding wins when present. -/
theorem lookupField_spreadFields (b : List (String × JsValue))
    (hb : (b.map Prod.fst).Nodup) (a : List (String × JsValue)) (k : String) :
    lookupField (spreadFields a b) k = Option.or (lookupField b k) (lookupField a k) := by
  induction b generalizing a with
  | nil => simp [spreadFields, lookupField, Option.or]
  | cons hd tl ih =>
    obtain ⟨k0, v0⟩ := hd
    simp only [List.map_cons, List.nodup_cons] at hb
    obtain ⟨hnot, htl⟩ := hb
    have hstep : spreadFields a ((k0, v0) :: tl) = spreadFields (setField a k0 v0) tl := by
      simp [spreadFields]
    rw [hstep, ih htl, lookupField_setField]
    by_cases hk : k0 = k
    · subst hk
      rw [lookupField_eq_none tl k0 hnot]
      simp [lookupField, Option.or]
    · simp [lookupField, hk]

/-- Per-key description of `{ ...rawBrowserOptions, ...overrides }`. -/
theorem lookupField_browserOptionsBeforeValidation (opts raw : List (String × JsValue)) (k : String) :
    lookupField (browserOptionsBeforeValidation raw opts) k =
      if !((lookupField opts k).getD .undefined).isUndefined && devServerBuilderOverriddenKeys.contains k
      then some ((lookupField opts k).getD .undefined)
      else lookupField raw k := by
  unfold browserOptionsBeforeValidation
  rw [lookupField_spreadFields _ (nodup_overridesFields opts), lookupField_overridesFields]
  by_cases hp : (!((lookupField opts k).getD JsValue.undefined).isUndefined &&
      devServerBuilderOverriddenKeys.contains k) = true
  · rw [if_pos hp, if_pos hp]
    rfl
  · rw [if_neg hp, if_neg hp]
    rfl

theorem exceptBind_ok {ε α β : Type} (a : α) (f : α → Except ε β) :
    (Except.ok a : Except ε α) >>= f = f a := rfl

theorem exceptBind_error {ε α β : Type} (e : ε) (f : α → Except ε β) :
    (Except.error e : Except ε α) >>= f = Except.error e := rfl

theorem exceptMap_ok {ε α β : Type} (a : α) (f : α → β) :
    f <$> (Except.ok a : Except ε α) = Except.ok (f a) := rfl

theorem exceptMap_error {ε α β : Type} (e : ε) (f : α → β) :
    f <$> (Except.error e : Except ε α) = Except.error e := rfl

theorem exceptPure {ε α : Type} (a : α) : (pure a : Except ε α) = Except.ok a := rfl

/-- C6: exactly the whitelisted keys (`mode`, `skipPlugins`, `publicPath`,
`css`, `stdin`) that have a defined value in the dev-server invocation
options are copied onto the raw browser-target options before validation;
at every other key the raw browser-target options reach validation
unchanged, and no non-whitelisted dev-server option is copied. -/
theorem whitelisted_overrides_exact (opts raw : List (String × JsValue)) (k : String) :
    lookupField (browserOptionsBeforeValidation raw opts) k =
      if !((lookupField opts k).getD .undefined).isUndefined && devServerBuilderOverriddenKeys.contains k
      then some ((lookupField opts k).getD .undefined)
      else lookupField raw k :=
  lookupField_browserOptionsBeforeValidation opts raw k

theorem isUndefined_eq_false (v : JsValue) (h : v ≠ .undefined) : v.isUndefined = false := by
  cases v
  case undefined => exact absurd rfl h
  all_goals rfl

theorem eq_undefined_of_isUndefined (v : JsValue) (h : v.isUndefined = true) : v = .undefined := by
  cases v <;> simp [JsValue.isUndefined] at h ⊢

theorem getProp_ne_undef_is_obj (css : JsValue) (k : String) (h : getProp css k ≠ .undefined) :
    ∃ cfs, css = .obj cfs := by
  cases css <;> simp [getProp] at h ⊢

theorem objectKeys_getProp_ok_is_obj (css : JsValue) (k : String) (ks : List String)
    (h : objectKeys (getProp css k) = .ok ks) : ∃ cfs, css = .obj cfs := by
  cases css <;> simp [getProp, objectKeys] at h ⊢

/-- C2: when all four CSS sub-options of the dev-server invocation options
are unset (`requireModuleExtension`, `extract` and `sourceMap` undefined,
`loaderOptions` empty), the normalization sets `options.css = undefined`, so
the `css` override is dropped and the raw browser-target option survives the
spread — a downstream default can apply; when any sub-option is set, the
`css` option is kept exactly as given. -/
theorem css_unset_left_unset (css : JsValue) (opts : List (String × JsValue))
    (hc : lookupField opts "css" = some css) :
    (getProp css "requireModuleExtension" = .undefined →
     getProp css "extract" = .undefined →
     getProp css "sourceMap" = .undefined →
     objectKeys (getProp css "loaderOptions") = .ok [] →
       normalizeOptions opts = .ok (setField opts "css" .undefined) ∧
       ∀ raw, lookupField (browserOptionsBeforeValidation raw (setField opts "css" .undefined))
         "css" = lookupField raw "css") ∧
    ((getProp css "requireModuleExtension" ≠ .undefined ∨
      getProp css "extract" ≠ .undefined ∨
      getProp css "sourceMap" ≠ .undefined ∨
      (∃ ks, objectKeys (getProp css "loaderOptions") = .ok ks ∧ ks ≠ [])) →
       normalizeOptions opts = .ok opts) := by
  constructor
  · intro h1 h2 h3 h4
    obtain ⟨cfs, rfl⟩ := objectKeys_getProp_ok_is_obj css "loaderOptions" [] h4
    have hcond : cssResetCondition (.obj cfs) = .ok true := by
      simp [cssResetCondition, getPropE, h1, h2, h3, h4, JsValue.isUndefined,
        exceptBind_ok, exceptMap_ok, exceptPure]
    have hnorm : normalizeOptions opts = .ok (setField opts "css" .undefined) := by
      simp [normalizeOptions, hc, hcond, exceptBind_ok, exceptPure]
    refine ⟨hnorm, fun raw => ?_⟩
    rw [lookupField_browserOptionsBeforeValidation]
    have hlook : lookupField (setField opts "css" .undefined) "css" = some JsValue.undefined := by
      rw [lookupField_setField]
      simp
    rw [hlook]
    simp [JsValue.isUndefined]
  · intro hset
    have hobj : ∃ cfs, css = .obj cfs := by
      rcases hset with h | h | h | ⟨ks, hks, -⟩
      · exact getProp_ne_undef_is_obj css _ h
      · exact getProp_ne_undef_is_obj css _ h
      · exact getProp_ne_undef_is_obj css _ h
      · exact objectKeys_getProp_ok_is_obj css _ ks hks
    obtain ⟨cfs, rfl⟩ := hobj
    have hcond : cssResetCondition (.obj cfs) = .ok false := by
      rcases hset with h | h | h | ⟨ks, hks, hne⟩
      · simp [cssResetCondition, getPropE, isUndefined_eq_false _ h, exceptBind_ok, exceptPure]
      · cases hr : (getProp (.obj cfs) "requireModuleExtension").isUndefined
        · simp [cssResetCondition, getPropE, hr, exceptBind_ok, exceptPure]
        · simp [cssResetCondition, getPropE, hr, isUndefined_eq_false _ h,
            exceptBind_ok, exceptPure]
      · cases hr : (getProp (.obj cfs) "requireModuleExtension").isUndefined
        · simp [cssResetCondition, getPropE, hr, exceptBind_ok, exceptPure]
        · cases hx : (getProp (.obj cfs) "extract").isUndefined
          · simp [cssResetCondition, getPropE, hr, hx, exceptBind_ok, exceptPure]
          · simp [cssResetCondition, getPropE, hr, hx, isUndefined_eq_false _ h,
              exceptBind_ok, exceptPure]
      · have hkse : ks.isEmpty = false := by
          cases ks
          · exact absurd rfl hne
          · rfl
        cases hr : (getProp (.obj cfs) "requireModuleExtension").isUndefined
        · simp [cssResetCondition, getPropE, hr, exceptBind_ok, exceptPure]
        · cases hx : (getProp (.obj cfs) "extract").isUndefined
          · simp [cssResetCondition, getPropE, hr, hx, exceptBind_ok, exceptPure]
          · cases hs : (getProp (.obj cfs) "sourceMap").isUndefined
            · simp [cssResetCondition, getPropE, hr, hx, hs, exceptBind_ok, exceptPure]
            · simp [cssResetCondition, getPropE, hr, hx, hs, hks, hkse,
                exceptBind_ok, exceptMap_ok, exceptPure]
    simp [normalizeOptions, hc, hcond, exceptBind_ok, exceptPure]

/-- Witness for C2: with all sub-options unset the `css` key is reset to
`undefined`; with `extract: true` the options object is untouched. -/
theorem css_unset_left_unset_witness :
    normalizeOptions [("css", .obj [("loaderOptions", .obj [])])] = .ok [("css", .undefined)] ∧
    normalizeOptions [("css", .obj [("extract", .bool true), ("loaderOptions", .obj [])])] =
      .ok [("css", .obj [("extract", .bool true), ("loaderOptions", .obj [])])] := by
  constructor
  · exact ((css_unset_left_unset (.obj [("loaderOptions", .obj [])])
      [("css", .obj [("loaderOptions", .obj [])])] rfl).1 rfl rfl rfl rfl).1
  · exact (css_unset_left_unset (.obj [("extract", .bool true), ("loaderOptions", .obj [])])
      [("css", .obj [("extract", .bool true), ("loaderOptions", .obj [])])] rfl).2
      (Or.inr (Or.inl (fun h => JsValue.noConfusion h)))

/-- Counterexample for C9: an invocation whose `options.css` is a defined
object with `requireModuleExtension: true` but with `loaderOptions`
undefined does not throw — the `&&` chain short-circuits before
`Object.keys(options.css.loaderOptions)` is evaluated — contradicting the
claim that the function throws for any invocation where
`options.css.loaderOptions` is undefined. -/
theorem css_read_throw_cex :
    cssResetCondition (.obj [("requireModuleExtension", .bool true)]) = .ok false ∧
    normalizeOptions [("css", .obj [("requireModuleExtension", .bool true)])] =
      .ok [("css", .obj [("requireModuleExtension", .bool true)])] :=
  ⟨rfl, rfl⟩

/-- C9 (amended): the normalization reads `options.css.requireModuleExtension`
first, so it throws a `TypeError` whenever `options.css` is undefined; when
`options.css` is a defined object whose `loaderOptions` is undefined, it
throws if and only if `requireModuleExtension`, `extract` and `sourceMap`
are all undefined as well, because the short-circuiting `&&` otherwise never
evaluates `Object.keys`. -/
theorem css_read_throw_amended (opts : List (String × JsValue)) :
    ((lookupField opts "css").getD .undefined = .undefined →
      normalizeOptions opts = .error (.typeError "Cannot read properties of undefined")) ∧
    (∀ cfs, lookupField opts "css" = some (.obj cfs) →
      getProp (.obj cfs) "loaderOptions" = .undefined →
      (normalizeOptions opts =
          .error (.typeError "Cannot convert undefined or null to object") ↔
        (getProp (.obj cfs) "requireModuleExtension" = .undefined ∧
         getProp (.obj cfs) "extract" = .undefined ∧
         getProp (.obj cfs) "sourceMap" = .undefined))) := by
  constructor
  · intro h
    simp [normalizeOptions, h, cssResetCondition, getPropE, exceptBind_error, exceptBind_ok]
  · intro cfs hcfs hlo
    cases hr : (getProp (.obj cfs) "requireModuleExtension").isUndefined
    · have hnorm : normalizeOptions opts = .ok opts := by
        simp [normalizeOptions, hcfs, cssResetCondition, getPropE, hr,
          exceptBind_ok, exceptPure]
      rw [hnorm]
      simp only [iff_iff_implies_and_implies]
      constructor
      · intro h
        exact absurd h (by simp)
      · rintro ⟨h1, -, -⟩
        rw [h1] at hr
        simp [JsValue.isUndefined] at hr
    · cases hx : (getProp (.obj cfs) "extract").isUndefined
      · have hnorm : normalizeOptions opts = .ok opts := by
          simp [normalizeOptions, hcfs, cssResetCondition, getPropE, hr, hx,
            exceptBind_ok, exceptPure]
        rw [hnorm]
        simp only [iff_iff_implies_and_implies]
        constructor
        · intro h
          exact absurd h (by simp)
        · rintro ⟨-, h2, -⟩
          rw [h2] at hx
          simp [JsValue.isUndefined] at hx
      · cases hs : (getProp (.obj cfs) "sourceMap").isUndefined
        · have hnorm : normalizeOptions opts = .ok opts := by
            simp [normalizeOptions, hcfs, cssResetCondition, getPropE, hr, hx, hs,
              exceptBind_ok, exceptPure]
          rw [hnorm]
          simp only [iff_iff_implies_and_implies]
          constructor
          · intro h
            exact absurd h (by simp)
          · rintro ⟨-, -, h3⟩
            rw [h3] at hs
            simp [JsValue.isUndefined] at hs
        · have hnorm : normalizeOptions opts =
              .error (.typeError "Cannot convert undefined or null to object") := by
            simp [normalizeOptions, hcfs, cssResetCondition, getPropE, hr, hx, hs, hlo,
              objectKeys, exceptBind_ok, exceptBind_error, exceptMap_error, exceptPure]
          rw [hnorm]
          simp [eq_undefined_of_isUndefined _ hr, eq_undefined_of_isUndefined _ hx, eq_undefined_of_isUndefined _ hs]

/-- Witness for C9 (amended): options without a `css` key throw the
property-read `TypeError`; a defined empty `css` object (no `loaderOptions`)
throws the `Object.keys` `TypeError`. -/
theorem css_read_throw_amended_witness :
    normalizeOptions [] = .error (.typeError "Cannot read properties of undefined") ∧
    normalizeOptions [("css", .obj [])] =
      .error (.typeError "Cannot convert undefined or null to object") :=
  ⟨(css_read_throw_amended []).1 rfl,
   ((css_read_throw_amended [("css", .obj [])]).2 [] rfl rfl).mpr ⟨rfl, rfl, rfl⟩⟩

theorem mergeValue_obj_right (x : JsValue) (e : List (String × JsValue)) :
    ∃ fs, mergeValue x (.obj e) = .obj fs := by
  cases x
  case obj a => exact ⟨mergeFields a e, by simp [mergeValue]⟩
  all_goals exact ⟨e, by simp [mergeValue]⟩

/-- C4: a deprecation warning is logged if and only if the legacy
`configure-webpack.js` hook file is present in the project root (and then
exactly one warning), and when present the resolved hook function is merged
into the inline options as an extra `configureWebpack` field rather than
rejected. -/
theorem legacy_hook_warning_iff_present (vueConfig : JsValue)
    (explicit : List (String × JsValue)) (present : Bool) (tag : Nat) :
    ((setupInlineOptions vueConfig explicit (resolveConfigureWebpack present tag)).2 =
      if present then [deprecationWarningText] else []) ∧
    (present = true →
      getProp (setupInlineOptions vueConfig explicit (resolveConfigureWebpack present tag)).1
        "configureWebpack" = .func tag) := by
  obtain ⟨fs, hfs⟩ :=
    mergeValue_obj_right (mergeValue (mergeValue (.obj []) (.obj defaultsFields)) vueConfig)
      explicit
  have hinline : inlineOptionsMerged vueConfig explicit = .obj fs := by
    simpa [inlineOptionsMerged, mergeOptionsIgnoreUndefined] using hfs
  cases present
  · simp [setupInlineOptions, resolveConfigureWebpack, applyConfigureWebpack, JsValue.truthy]
  · constructor
    · simp [setupInlineOptions, resolveConfigureWebpack, applyConfigureWebpack, JsValue.truthy]
    · intro _
      simp [setupInlineOptions, resolveConfigureWebpack, applyConfigureWebpack,
        JsValue.truthy, hinline, setProp, getProp, lookupField_setField]

/-- Witness for C4: with the hook file present one warning is logged and the
hook lands in `configureWebpack`; with it absent no warning is logged. -/
theorem legacy_hook_warning_iff_present_witness :
    (setupInlineOptions (.obj []) [] (resolveConfigureWebpack true 5)).2 =
      [deprecationWarningText] ∧
    (setupInlineOptions (.obj []) [] (resolveConfigureWebpack false 5)).2 = [] ∧
    getProp (setupInlineOptions (.obj []) [] (resolveConfigureWebpack true 5)).1
      "configureWebpack" = .func 5 := by
  refine ⟨?_, ?_, (legacy_hook_warning_iff_present (.obj []) [] true 5).2 rfl⟩
  · simpa using (legacy_hook_warning_iff_present (.obj []) [] true 5).1
  · simpa using (legacy_hook_warning_iff_present (.obj []) [] false 5).1

/-- C8: for each of the serve arguments `open`, `host`, `port`, `https` and
`public`, the value passed to the delegate is the dev-server invocation
option when that option is truthy and otherwise the corresponding field of
the merged `devServer` config; in particular the falsy explicit values
`open: false`, `host: ""`, `port: 0`, `https: false` and `public: ""` are
replaced by the project-config value rather than taking precedence. -/
theorem serve_args_truthy_fallback (opts : List (String × JsValue)) (inlineOptions : JsValue)
    (browserOptions : List (String × JsValue)) :
    (lookupField (serveArgsFields opts inlineOptions browserOptions) "open" =
      some (if (getProp (.obj opts) "open").truthy then getProp (.obj opts) "open"
            else optChainProp (getProp inlineOptions "devServer") "open")) ∧
    (lookupField (serveArgsFields opts inlineOptions browserOptions) "host" =
      some (if (getProp (.obj opts) "host").truthy then getProp (.obj opts) "host"
            else optChainProp (getProp inlineOptions "devServer") "host")) ∧
    (lookupField (serveArgsFields opts inlineOptions browserOptions) "port" =
      some (if (getProp (.obj opts) "port").truthy then getProp (.obj opts) "port"
            else optChainProp (getProp inlineOptions "devServer") "port")) ∧
    (lookupField (serveArgsFields opts inlineOptions browserOptions) "https" =
      some (if (getProp (.obj opts) "https").truthy then getProp (.obj opts) "https"
            else optChainProp (getProp inlineOptions "devServer") "https")) ∧
    (lookupField (serveArgsFields opts inlineOptions browserOptions) "public" =
      some (if (getProp (.obj opts) "public").truthy then getProp (.obj opts) "public"
            else optChainProp (getProp inlineOptions "devServer") "public")) ∧
    (serveArgsFields
        [("open", .bool false), ("host", .str ""), ("port", .num 0),
          ("https", .bool false), ("public", .str "")]
        (.obj [("devServer", .obj
          [("open", .bool true), ("host", .str "0.0.0.0"), ("port", .num 4200),
            ("https", .bool true), ("public", .str "myhost.dev")])])
        [] =
      [("open", .bool true), ("copy", .undefined), ("stdin", .undefined), ("mode", .undefined),
        ("host", .str "0.0.0.0"), ("port", .num 4200), ("https", .bool true),
        ("public", .str "myhost.dev"), ("skip-plugins", .undefined)]) :=
  ⟨rfl, rfl, rfl, rfl, rfl, rfl⟩

/-- C10: the `chainWebpack` entry of the merged inline options is always the
adapter's own wrapper — it wins the merge over any project-config
`chainWebpack` because functions are not deep-merged — and the wrapper
invokes the project configuration file's `chainWebpack` hook, when present
(truthy), exactly once and only after all of the adapter's own webpack
modifications. -/
theorem chain_webpack_wrapper_wins_and_order (vueCfg : List (String × JsValue))
    (hv : (vueCfg.map Prod.fst).Nodup)
    (bp fh bc ds td babelConfig watch : JsValue) :
    lookupField (jsFields (inlineOptionsMerged (.obj vueCfg)
        (explicitLayerFields bp fh bc ds td))) "chainWebpack" = some chainWebpackWrapper ∧
    (∀ vueConfigChain : JsValue,
      (chainWebpackWrapperActions babelConfig watch vueConfigChain).count
          .vueConfigChainWebpack = (if vueConfigChain.truthy then 1 else 0) ∧
      (vueConfigChain.truthy = true →
        chainWebpackWrapperActions babelConfig watch vueConfigChain =
          chainWebpackWrapperActions babelConfig watch .undefined ++ [.vueConfigChainWebpack]) ∧
      ChainAction.vueConfigChainWebpack ∉ chainWebpackWrapperActions babelConfig watch .undefined) := by
  constructor
  · have he : ((explicitLayerFields bp fh bc ds td).map Prod.fst).Nodup := by
      have hkeys : (explicitLayerFields bp fh bc ds td).map Prod.fst =
          ["chainWebpack", "publicPath", "filenameHashing", "css", "devServer",
            "transpileDependencies"] := rfl
      rw [hkeys]
      decide
    rw [lookupField_inlineOptionsMerged vueCfg _ hv he]
    cases hvc : lookupField vueCfg "chainWebpack" with
    | none => rfl
    | some w =>
      cases w <;> simp [fieldCombine, mergeValue, explicitLayerFields, lookupField,
        defaultsFields, chainWebpackWrapper]
  · intro vueConfigChain
    refine ⟨?_, ?_, ?_⟩
    · cases hb : babelConfig.truthy <;> cases hw : watch.truthy <;>
        cases hvt : vueConfigChain.truthy <;>
          simp [chainWebpackWrapperActions, hb, hw, hvt]
    · intro h
      cases hb : babelConfig.truthy <;> cases hw : watch.truthy <;>
        simp [chainWebpackWrapperActions, hb, hw, h,
          show JsValue.undefined.truthy = false from rfl]
    · cases hb : babelConfig.truthy <;> cases hw : watch.truthy <;>
        simp [chainWebpackWrapperActions, hb, hw,
          show JsValue.undefined.truthy = false from rfl]

/-- Witness for C10: with a project config that itself sets `chainWebpack`,
the merged entry is still the adapter's wrapper, and with the hook present
the wrapper's action sequence ends with the hook after every adapter
modification. -/
theorem chain_webpack_wrapper_wins_and_order_witness :
    lookupField (jsFields (inlineOptionsMerged (.obj [("chainWebpack", .func 9)])
        (explicitLayerFields (.str "/") .undefined .undefined .undefined .undefined))) "chainWebpack" =
      some chainWebpackWrapper ∧
    chainWebpackWrapperActions .undefined (.bool false) (.func 9) =
      [.modifyIndexHtmlPath, .modifyEntryPoint, .modifyTsConfigPaths, .modifyCachePaths,
        .modifyTypescriptAliases, .installWatchDisablePlugin, .vueConfigChainWebpack] := by
  have h := chain_webpack_wrapper_wins_and_order [("chainWebpack", .func 9)] (by decide)
    (.str "/") .undefined .undefined .undefined .undefined .undefined (.bool false)
  refine ⟨h.1, ?_⟩
  have h2 := (h.2 (.func 9)).2.1 rfl
  rw [h2]
  rfl

theorem mergeValue_not_obj (o v : JsValue) (h : v.isPlainObj = false) : mergeValue o v = v := by
  cases o <;> cases v <;> simp_all [mergeValue, JsValue.isPlainObj]

theorem fieldCombine_some_of (old : Option JsValue) (v : JsValue) (h1 : v ≠ .undefined)
    (h2 : v.isPlainObj = false) : fieldCombine old (some v) = some v := by
  cases old with
  | none => cases v <;> first | exact absurd rfl h1 | rfl
  | some o =>
    cases v <;> first
      | exact absurd rfl h1
      | simp [fieldCombine, mergeValue_not_obj _ _ h2]

/-- C1 (amended): at every key, the merged inline options combine the
built-in defaults, the project configuration file's contents and the
explicit layer in increasing priority under `merge-options`' per-key rule:
absent and `undefined` values in a higher-priority layer never override a
lower layer; a defined higher-priority value replaces the lower one —  and
therefore the explicit value wins outright whenever it is not a plain
object — but when both values are plain objects they are deep-merged
key by key instead of the explicit object being taken wholesale. -/
theorem merge_precedence_per_key (vueCfg explicit : List (String × JsValue))
    (hv : (vueCfg.map Prod.fst).Nodup) (he : (explicit.map Prod.fst).Nodup) (k : String) :
    lookupField (jsFields (inlineOptionsMerged (.obj vueCfg) explicit)) k =
      fieldCombine (fieldCombine (fieldCombine none (lookupField defaultsFields k))
        (lookupField vueCfg k)) (lookupField explicit k) ∧
    (∀ v, lookupField explicit k = some v → v ≠ .undefined → v.isPlainObj = false →
      lookupField (jsFields (inlineOptionsMerged (.obj vueCfg) explicit)) k = some v) ∧
    ((lookupField explicit k = none ∨ lookupField explicit k = some .undefined) →
      lookupField (jsFields (inlineOptionsMerged (.obj vueCfg) explicit)) k =
        fieldCombine (fieldCombine none (lookupField defaultsFields k))
          (lookupField vueCfg k)) := by
  refine ⟨lookupField_inlineOptionsMerged vueCfg explicit hv he k, ?_, ?_⟩
  · intro v hvv h1 h2
    rw [lookupField_inlineOptionsMerged vueCfg explicit hv he k, hvv,
      fieldCombine_some_of _ v h1 h2]
  · intro h
    rcases h with h | h <;>
      rw [lookupField_inlineOptionsMerged vueCfg explicit hv he k, h] <;> rfl

/-- Counterexample for C1: the key `css` overlaps the defaults layer and the
explicit layer, the explicit value `{ extract: true }` is given (defined),
yet the merged inline options do not hold the explicit value at `css` —
`merge-options` deep-merges the two plain objects, so the merged `css` keeps
the defaults' `requireModuleExtension`, `sourceMap` and `loaderOptions`
sub-keys. -/
theorem merge_precedence_deep_merge_cex :
    lookupField (explicitLayerFields (.str "/") .undefined (.obj [("extract", .bool true)])
      .undefined .undefined) "css" = some (.obj [("extract", .bool true)]) ∧
    lookupField (jsFields (inlineOptionsMerged (.obj [])
        (explicitLayerFields (.str "/") .undefined (.obj [("extract", .bool true)]) .undefined .undefined)))
      "css" =
      some (.obj
        [("requireModuleExtension", .bool true), ("extract", .bool true),
          ("sourceMap", .bool false), ("loaderOptions", .obj [])]) ∧
    lookupField (jsFields (inlineOptionsMerged (.obj [])
        (explicitLayerFields (.str "/") .undefined (.obj [("extract", .bool true)]) .undefined .undefined)))
      "css" ≠ some (.obj [("extract", .bool true)]) := by
  have h2 : lookupField (jsFields (inlineOptionsMerged (.obj [])
      (explicitLayerFields (.str "/") .undefined (.obj [("extract", .bool true)]) .undefined .undefined)))
      "css" =
      some (.obj
        [("requireModuleExtension", .bool true), ("extract", .bool true),
          ("sourceMap", .bool false), ("loaderOptions", .obj [])]) := by
    rw [lookupField_inlineOptionsMerged [] _ (by decide) (by decide)]
    simp [defaultsFields, explicitLayerFields, lookupField, fieldCombine, mergeValue,
      mergeFields, mergeField, setField]
  refine ⟨rfl, h2, ?_⟩
  rw [h2]
  intro hcontra
  have h3 := Option.some.inj hcontra
  have h4 := congrArg (fun v => getProp v "sourceMap") h3
  exact JsValue.noConfusion h4

/-- Witness for C1 (amended): a defined non-object explicit `publicPath`
wins over both the project config and the default, and a project-config key
(`lintOnSave`) untouched by defaults and explicit layer survives as given. -/
theorem merge_precedence_per_key_witness :
    lookupField (jsFields (inlineOptionsMerged (.obj [("publicPath", .str "/vue/")])
        (explicitLayerFields (.str "/browser/") .undefined .undefined .undefined .undefined))) "publicPath" =
      some (.str "/browser/") ∧
    lookupField (jsFields (inlineOptionsMerged (.obj [("lintOnSave", .bool false)])
        (explicitLayerFields .undefined .undefined .undefined .undefined .undefined))) "lintOnSave" =
      some (.bool false) := by
  constructor
  · exact (merge_precedence_per_key [("publicPath", .str "/vue/")]
      (explicitLayerFields (.str "/browser/") .undefined .undefined .undefined .undefined)
      (by decide) (by decide) "publicPath").2.1 (.str "/browser/") rfl
      (fun h => JsValue.noConfusion h) rfl
  · exact (merge_precedence_per_key [("lintOnSave", .bool false)]
      (explicitLayerFields .undefined .undefined .undefined .undefined .undefined)
      (by decide) (by decide) "lintOnSave").2.2 (Or.inl rfl)
